import Mathlib

/-!
Shallow embedding of the MediboxApi alert-distribution core (server.js).

The mutable JavaScript `Map` objects (`wsClients`, `pendingAlerts`) are
modelled as insertion-ordered association lists; JS `Set` objects are
modelled as duplicate-free lists.  Each stateful handler of the source is
translated into a pure function from the explicit server state (plus the
outcomes of external calls, passed as arguments) to the next state together
with the list of WebSocket send attempts it performs.
-/

/-- Insertion-ordered association list, mirroring a JavaScript `Map`. -/
abbrev AMap (α β : Type) := List (α × β)

/-- `Map.get`: value of the first entry with the given key. -/
def AMap.get [DecidableEq α] (m : AMap α β) (k : α) : Option β :=
  (m.find? (fun p => p.1 = k)).map Prod.snd

/-- `Map.has`. -/
def AMap.hasKey [DecidableEq α] (m : AMap α β) (k : α) : Bool :=
  m.any (fun p => p.1 = k)

/-- `Map.set`: update in place when the key exists (JS keeps the original
insertion position), otherwise append at the end. -/
def AMap.set [DecidableEq α] (m : AMap α β) (k : α) (v : β) : AMap α β :=
  if m.hasKey k then m.map (fun p => if p.1 = k then (k, v) else p)
  else m ++ [(k, v)]

/-- `Map.delete`. -/
def AMap.del [DecidableEq α] (m : AMap α β) (k : α) : AMap α β :=
  m.filter (fun p => ¬ p.1 = k)

/-- The keys, in insertion order. -/
def AMap.keys (m : AMap α β) : List α := m.map Prod.fst

/-- The idiom `if (!m.has(k)) m.set(k, empty)` of the source. -/
def AMap.ensure [DecidableEq α] (m : AMap α β) (k : α) (v0 : β) : AMap α β :=
  if m.hasKey k then m else m.set k v0

/-!
Data model of the alert core (server.js lines 159-321).

`wsClients : Map aideId -> Set ws` is the Session Registry and
`pendingAlerts : Map aideId -> Map alertId -> payload` is the
Pending-Alert Store.  Sockets are identified by natural numbers.
-/

/-- The alert fields assembled by the callers of `sendToAide` (topic router,
REST trigger): `{ type, patientId, alertType, message, topic }`. -/
structure AlertData where
  type : String
  patientId : String
  alertType : String
  message : String
  topic : String
deriving DecidableEq

/-- The stored and broadcast payload `{ ...data, alertId, timestamp }`
built in `sendToAide` (server.js line 294). -/
structure Payload where
  data : AlertData
  alertId : String
  timestamp : String
deriving DecidableEq

/-- The two global maps of server.js lines 159-160. -/
structure ServerState where
  wsClients : AMap String (List Nat)
  pendingAlerts : AMap String (AMap String Payload)
deriving DecidableEq

/-- Initial state: both maps start empty (server.js lines 159-160). -/
def initState : ServerState := ⟨[], []⟩

/-- Environment describing the sockets: `ready w` models
`ws.readyState === 1` and `fails w` models `ws.send` raising. -/
structure WsEnv where
  ready : Nat → Bool
  fails : Nat → Bool

/-- `wsSendSafe` (server.js lines 166-172): sends only when the socket is
open, and catches any exception raised by `ws.send`, so it is a total
function returning the delivered messages.  The control flow of every
caller is therefore independent of send failures. -/
def wsSendSafe (env : WsEnv) (w : Nat) (p : Payload) : List (Nat × Payload) :=
  if env.ready w && !env.fails w then [(w, p)] else []

/-- A send attempt: caregiver the payload is addressed to, socket, payload. -/
abbrev SendAttempt := String × Nat × Payload

/-- The messages actually delivered out of a list of `wsSendSafe`
invocations, under a given socket environment. -/
def deliveredSends (env : WsEnv) (l : List SendAttempt) : List SendAttempt :=
  l.filter (fun s => env.ready s.2.1 && !env.fails s.2.1)

/-- The send attempts addressed to one caregiver. -/
def sendsFor (c : String) (l : List SendAttempt) : List SendAttempt :=
  l.filter (fun s => s.1 = c)

/-- The set of sockets currently registered for a caregiver. -/
def socketsOf (st : ServerState) (c : String) : List Nat :=
  (st.wsClients.get c).getD []

/-- The pending queue of a caregiver. -/
def queueOf (st : ServerState) (c : String) : AMap String Payload :=
  (st.pendingAlerts.get c).getD []

/-- Look one alert up in the Pending-Alert Store. -/
def lookupAlert (st : ServerState) (c : String) (alertId : String) :
    Option Payload :=
  (st.pendingAlerts.get c).bind (fun q => q.get alertId)

/-- `sendToAide` (server.js lines 289-305).  The fresh `crypto.randomUUID()`
and `new Date().toISOString()` of the source are passed in as the
`alertId` and `timestamp` arguments.  Returns the new state, the
`delivered` boolean, and the broadcast attempts. -/
def sendToAide (st : ServerState) (aideId : String) (data : AlertData)
    (alertId timestamp : String) : ServerState × Bool × List SendAttempt :=
  let pending0 := st.pendingAlerts.ensure aideId []
  let clients := st.wsClients.get aideId
  let payload : Payload := ⟨data, alertId, timestamp⟩
  let queue := (pending0.get aideId).getD []
  let pending1 := pending0.set aideId (queue.set alertId payload)
  let st1 : ServerState := { st with pendingAlerts := pending1 }
  match clients with
  | none => (st1, false, [])
  | some cs =>
    if cs.isEmpty then (st1, false, [])
    else (st1, true, cs.map (fun w => (aideId, w, payload)))

/-- The `ack` branch of the socket message handler (server.js lines
255-262): remove the entry when present, otherwise do nothing. -/
def ackAlert (st : ServerState) (aideId alertId : String) : ServerState :=
  match st.pendingAlerts.get aideId with
  | none => st
  | some q =>
    if q.hasKey alertId then
      { st with pendingAlerts := st.pendingAlerts.set aideId (q.del alertId) }
    else st

/-- The `resend_pending` branch (server.js lines 264-269): re-send every
queued payload to the requesting socket, no state change. -/
def resendPending (st : ServerState) (aideId : String) (wsId : Nat) :
    List SendAttempt :=
  match st.pendingAlerts.get aideId with
  | none => []
  | some q => q.map (fun e => (aideId, wsId, e.2))

/-- The socket close handler (server.js lines 272-279): remove the socket
from the registry and drop the caregiver key when its set becomes empty. -/
def wsClose (st : ServerState) (aideId : String) (wsId : Nat) : ServerState :=
  match st.wsClients.get aideId with
  | none => st
  | some s =>
    let s1 := s.erase wsId
    if s1.isEmpty then { st with wsClients := st.wsClients.del aideId }
    else { st with wsClients := st.wsClients.set aideId s1 }

/-- The success tail of the connection handler (server.js lines 235-244):
register the socket, make sure the caregiver has a pending queue, and
flush every queued payload over the new socket. -/
def registerAndFlush (st : ServerState) (aideId : String) (wsId : Nat) :
    ServerState × List SendAttempt :=
  let clients0 := st.wsClients.ensure aideId []
  let s := (clients0.get aideId).getD []
  let clients1 := clients0.set aideId (if wsId ∈ s then s else s ++ [wsId])
  let pending0 := st.pendingAlerts.ensure aideId []
  let st1 : ServerState := ⟨clients1, pending0⟩
  let queue := (pending0.get aideId).getD []
  (st1, queue.map (fun e => (aideId, wsId, e.2)))

/-- Body of the credential lookup response
(`GET /aidesoignants/password/<id>`): HTTP status flag plus the
`mot_de_passe` field, absent when the JSON has none. -/
structure AuthResponse where
  ok : Bool
  mot_de_passe : Option String
deriving DecidableEq

/-- Outcome of one connection attempt. -/
inductive HandshakeResult where
  | rejected (errMsg : String) (st : ServerState)
  | accepted (st : ServerState) (flushed : List SendAttempt)
deriving DecidableEq

/-- JS falsiness of `url.searchParams.get(..)`: absent (`null`) or `""`. -/
def isFalsyParam : Option String → Bool
  | none => true
  | some s => s = ""

/-- The connection handler (server.js lines 174-287).  `authFetch` models
the awaited `fetch` of the stored credential together with
`response.json()`: `Except.error` when either throws (caught by the
handler, which answers `Internal server error.`). -/
def onConnection (st : ServerState) (apiKey : String) (wsId : Nat)
    (aideId password token : Option String)
    (authFetch : Except Unit AuthResponse) : HandshakeResult :=
  if isFalsyParam aideId then
    .rejected "Missing 'id' query param" st
  else if isFalsyParam password then
    .rejected "Missing 'pwd' query param" st
  else if apiKey ≠ "" ∧ token ≠ some apiKey then
    .rejected "Invalid token" st
  else
    match authFetch with
    | .error _ => .rejected "Internal server error." st
    | .ok resp =>
      if !resp.ok then
        .rejected "Authentication failed due to API error" st
      else if resp.mot_de_passe ≠ password then
        .rejected "Invalid password" st
      else
        let rf := registerAndFlush st (aideId.getD "") wsId
        .accepted rf.1 rf.2

/-- One tick of the retry timer (server.js lines 307-321): for every
caregiver present in the Session Registry, re-broadcast every queued
payload to every registered socket.  The state is unchanged.  All sends go
through `wsSendSafe`, whose internal catch is why a raising send never
interrupts the iteration. -/
def retryTick (st : ServerState) : List SendAttempt :=
  st.wsClients.flatMap (fun c =>
    match st.pendingAlerts.get c.1 with
    | none => []
    | some q =>
      if q.isEmpty then []
      else q.flatMap (fun e => c.2.map (fun w => (c.1, w, e.2))))

/-!
Caregiver Directory Cache (server.js lines 94-137).
-/

/-- One record of the `GET /patients` bulk fetch.  `fk_aide_soignant` is
`none` when the JSON field is `null` or absent. -/
structure Patient where
  id_patient : String
  fk_aide_soignant : Option String
deriving DecidableEq

/-- What `res.json()` can give back: a JSON array of patients, or any
non-array value (`getAideForPatient` guards with `Array.isArray`). -/
inductive PatientsJson where
  | arr (l : List Patient)
  | nonArray
deriving DecidableEq

/-- The two module-level cache variables (server.js lines 94-95):
`patientsCache = null` initially, plus the fetch timestamp. -/
structure CacheState where
  patientsCache : Option PatientsJson
  patientsCacheTs : Int
deriving DecidableEq

def PATIENTS_CACHE_TTL_MS : Int := 30000

/-- `fetchAllPatients` (server.js lines 98-124).  `now` is the
`Date.now()` read at entry, `now2` the one taken after a successful fetch;
`fetchJson` models `await fetch(url)` followed by `await res.json()`,
`Except.error` when either throws.  Note the catch branch of the source
returns `[]` and leaves the cache untouched. -/
def fetchAllPatients (st : CacheState) (now now2 : Int) (apiBase : String)
    (fetchJson : Except Unit PatientsJson) : CacheState × PatientsJson :=
  if st.patientsCache.isSome ∧ now - st.patientsCacheTs < PATIENTS_CACHE_TTL_MS
  then
    (st, st.patientsCache.getD .nonArray)
  else if apiBase = "" then
    (st, .arr [])
  else
    match fetchJson with
    | .ok data => ({ patientsCache := some data, patientsCacheTs := now2 }, data)
    | .error _ => (st, .arr [])

/-- JS truthiness of `p.fk_aide_soignant || null`: an absent or empty
string becomes `null`. -/
def aideField : Option String → Option String
  | none => none
  | some s => if s = "" then none else some s

/-- `getAideForPatient` (server.js lines 126-137).  `fetchAllPatients`
never throws, so the surrounding try/catch of the source is dead. -/
def getAideForPatient (st : CacheState) (now now2 : Int) (apiBase : String)
    (fetchJson : Except Unit PatientsJson) (patientId : String) :
    CacheState × Option String :=
  let r := fetchAllPatients st now now2 apiBase fetchJson
  match r.2 with
  | .nonArray => (r.1, none)
  | .arr l =>
    match l.find? (fun x => x.id_patient = patientId) with
    | none => (r.1, none)
    | some p => (r.1, aideField p.fk_aide_soignant)

/-!
Topic router: the MQTT message handler (server.js lines 350-555).
-/

/-- Fields read out of `JSON.parse(message)` in the `delivery` branch;
`none` models an absent or falsy field. -/
structure DeliveryData where
  heure_distrib : Option String
  nom_medoc : Option String
  quantite_totale : Option String
  quantite_restante : Option String
  compartiment : Option String
deriving DecidableEq

/-- Everything the MQTT handler returns: the two alert maps, the cache,
and the list of WebSocket send attempts made while routing. -/
structure RouteOutcome where
  server : ServerState
  cache : CacheState
  sends : List SendAttempt
deriving DecidableEq

/-- The MQTT topic-router message handler (server.js lines 350-555) as a
fallible function: `Except.error` is an exception escaping the async
handler, i.e. an unhandled promise rejection.

External effects are passed in as arguments: `patientsFetch` feeds the
`getAideForPatient` lookup, `parseDelivery` models `JSON.parse(message)`
in the `delivery` branch (the only parse in the handler, and the only
statement not guarded by any try/catch), `extFetch` models the data-store
calls performed inside the per-branch try/catch blocks (their outcome
never escapes: non-ok and thrown cases are only logged; in the
`createclient` branch the body even references the undefined variable
`id_patient`, a ReferenceError swallowed by that same catch).  `alertId`
and `timestamp` feed `sendToAide` when the branch dispatches. -/
def splitOnCharAux (sep : Char) : List Char → List Char → List String
  | [], acc => [String.mk acc.reverse]
  | c :: cs, acc =>
    if c = sep then String.mk acc.reverse :: splitOnCharAux sep cs []
    else splitOnCharAux sep cs (c :: acc)

/-- The JS `topic.split("/")` for the single-character separator. -/
def jsSplit (s : String) (sep : Char) : List String :=
  splitOnCharAux sep s.data []

def onMqttMessage (st : ServerState) (cst : CacheState)
    (topic message : String) (now now2 : Int) (apiBase : String)
    (patientsFetch : Except Unit PatientsJson)
    (parseDelivery : Except String DeliveryData)
    (extFetch : Except Unit Bool)
    (alertId timestamp : String) : Except String RouteOutcome :=
  let _ := extFetch
  let parts := (jsSplit topic '/').filter (fun s => s ≠ "")
  if parts.length ≥ 4 ∧ parts.take 2 = ["alert", "box"] then
    let patientId := (parts.get? 2).getD ""
    let alertType := "/".intercalate (parts.drop 3)
    let r := getAideForPatient cst now now2 apiBase patientsFetch patientId
    let cst1 := r.1
    let aideId := r.2
    if alertType = "mecanic" then
      .ok ⟨st, cst1, []⟩
    else if alertType = "seuilmedoc" then
      match aideId with
      | some a =>
        let d := sendToAide st a ⟨"warning", patientId, alertType, message, topic⟩
          alertId timestamp
        .ok ⟨d.1, cst1, d.2.2⟩
      | none => .ok ⟨st, cst1, []⟩
    else if alertType = "plusmedoc" then
      match aideId with
      | some a =>
        let d := sendToAide st a ⟨"critical", patientId, alertType, message, topic⟩
          alertId timestamp
        .ok ⟨d.1, cst1, d.2.2⟩
      | none => .ok ⟨st, cst1, []⟩
    else if alertType = "delivery" then
      match parseDelivery with
      | .error e => .error e
      | .ok _ =>
        .ok ⟨st, cst1, []⟩
    else if alertType = "getprescription" then
      match aideId with
      | some a =>
        let d := sendToAide st a ⟨"request", patientId, alertType, message, topic⟩
          alertId timestamp
        .ok ⟨d.1, cst1, d.2.2⟩
      | none => .ok ⟨st, cst1, []⟩
    else if alertType = "getmedocs" then
      match aideId with
      | some a =>
        let d := sendToAide st a ⟨"request", patientId, alertType, message, topic⟩
          alertId timestamp
        .ok ⟨d.1, cst1, d.2.2⟩
      | none => .ok ⟨st, cst1, []⟩
    else if alertType = "createclient" then
      match aideId with
      | some a =>
        let d := sendToAide st a ⟨"request", patientId, alertType, message, topic⟩
          alertId timestamp
        .ok ⟨d.1, cst1, d.2.2⟩
      | none => .ok ⟨st, cst1, []⟩
    else
      .ok ⟨st, cst1, []⟩
  else
    .ok ⟨st, cst, []⟩

/-!
The core as a transition system: one constructor per externally triggered
operation, each mapped to the handler it runs in server.js.
-/

/-- Operations of the core.  `dispatch` is a `sendToAide` call (topic
router or REST trigger), `connect` an inbound socket connection, `sweep`
one retry-timer tick, `resend`/`ack` the two authenticated inbound message
kinds, `close` a socket close. -/
instance [DecidableEq e] [DecidableEq a] : DecidableEq (Except e a) :=
  fun x y => by
    cases x with
    | error u =>
      cases y with
      | error v =>
        by_cases h : u = v
        · exact isTrue (by rw [h])
        · exact isFalse (by intro hc; cases hc; exact h rfl)
      | ok w => exact isFalse (by intro hc; cases hc)
    | ok u =>
      cases y with
      | error v => exact isFalse (by intro hc; cases hc)
      | ok w =>
        by_cases h : u = w
        · exact isTrue (by rw [h])
        · exact isFalse (by intro hc; cases hc; exact h rfl)

inductive Op where
  | dispatch (aideId : String) (data : AlertData) (alertId timestamp : String)
  | connect (wsId : Nat) (aideId password token : Option String)
      (authFetch : Except Unit AuthResponse)
  | sweep
  | resend (aideId : String) (wsId : Nat)
  | ack (aideId alertId : String)
  | close (aideId : String) (wsId : Nat)
deriving DecidableEq

/-- One step of the core: next state plus the send attempts made. -/
def step (apiKey : String) (st : ServerState) : Op → ServerState × List SendAttempt
  | .dispatch a d i ts =>
    let r := sendToAide st a d i ts
    (r.1, r.2.2)
  | .connect w a p t f =>
    match onConnection st apiKey w a p t f with
    | .rejected _ st1 => (st1, [])
    | .accepted st1 fl => (st1, fl)
  | .sweep => (st, retryTick st)
  | .resend a w => (st, resendPending st a w)
  | .ack a i => (ackAlert st a i, [])
  | .close a w => (wsClose st a w, [])

/-- Freshness of the generated id: `crypto.randomUUID()` never collides
with an id already queued for that caregiver. -/
def opFresh (st : ServerState) : Op → Prop
  | .dispatch a _ i _ => (queueOf st a).hasKey i = false
  | _ => True

/-- Side condition tying an inbound socket message to a live session: the
`resend_pending` handler is a closure attached to a socket that is
registered for `aideId` from handshake until its close event. -/
def opValid (st : ServerState) : Op → Prop
  | .resend a w => w ∈ socketsOf st a
  | _ => True

/-- Events of a run: every send attempt paired with the state in which it
was made. -/
def runEvents (apiKey : String) (st : ServerState) :
    List Op → List (ServerState × SendAttempt)
  | [] => []
  | op :: rest =>
    let r := step apiKey st op
    r.2.map (fun s => (r.1, s)) ++ runEvents apiKey r.1 rest

/-- All side conditions hold along a run. -/
def TraceValid (apiKey : String) (st : ServerState) : List Op → Prop
  | [] => True
  | op :: rest => opValid st op ∧ TraceValid apiKey (step apiKey st op).1 rest

/-!
Behavioural lemmas about the individual operations.
-/

/-- The Pending-Alert Store as left by one `sendToAide` call. -/
def dispatchedPending (st : ServerState) (a : String) (pl : Payload) :
    AMap String (AMap String Payload) :=
  let pending0 := st.pendingAlerts.ensure a []
  pending0.set a (((pending0.get a).getD []).set pl.alertId pl)

/-!
Theorems.
-/

theorem AMap.get_nil [DecidableEq α] (k : α) :
    AMap.get (β := β) [] k = none := rfl

theorem AMap.get_cons [DecidableEq α] (p : α × β) (m : AMap α β) (k : α) :
    AMap.get (p :: m) k = if p.1 = k then some p.2 else m.get k := by
  by_cases hp : p.1 = k
  · simp [AMap.get, List.find?_cons_of_pos, hp]
  · simp [AMap.get, List.find?_cons_of_neg, hp]

theorem AMap.hasKey_cons [DecidableEq α] (p : α × β) (m : AMap α β) (k : α) :
    AMap.hasKey (p :: m) k = (p.1 = k ∨ m.hasKey k = true : Prop) := by
  simp [AMap.hasKey]

theorem AMap.get_append [DecidableEq α] (m m' : AMap α β) (k : α) :
    AMap.get (m ++ m') k =
      match m.get k with
      | some v => some v
      | none => m'.get k := by
  induction m with
  | nil => simp [AMap.get_nil]
  | cons p m ih =>
    by_cases hp : p.1 = k
    · simp [AMap.get_cons, hp]
    · simpa [AMap.get_cons, hp] using ih

theorem AMap.get_map_upd [DecidableEq α] (m : AMap α β) (k : α) (v : β) :
    AMap.get (m.map (fun p => if p.1 = k then (k, v) else p)) k =
      if m.hasKey k then some v else none := by
  induction m with
  | nil => simp [AMap.get_nil, AMap.hasKey]
  | cons p m ih =>
    by_cases hp : p.1 = k
    · simp [AMap.get_cons, hp, AMap.hasKey]
    · simp only [List.map_cons, if_neg hp, AMap.get_cons, if_neg hp, ih]
      have : AMap.hasKey (p :: m) k = AMap.hasKey m k := by
        simp [AMap.hasKey, hp]
      rw [this]

theorem AMap.get_map_upd_ne [DecidableEq α] (m : AMap α β) (k k' : α) (v : β)
    (hne : k' ≠ k) :
    AMap.get (m.map (fun p => if p.1 = k then (k, v) else p)) k' = m.get k' := by
  induction m with
  | nil => simp
  | cons p m ih =>
    by_cases hp : p.1 = k
    · have hpk : ¬ p.1 = k' := fun hc => hne (hc ▸ hp ▸ rfl)
      rw [List.map_cons, if_pos hp, AMap.get_cons, AMap.get_cons, if_neg hpk,
        if_neg (by simpa using Ne.symm hne)]
      exact ih
    · by_cases hpk : p.1 = k'
      · rw [List.map_cons, if_neg hp, AMap.get_cons, if_pos hpk,
          AMap.get_cons, if_pos hpk]
      · rw [List.map_cons, if_neg hp, AMap.get_cons, if_neg hpk,
          AMap.get_cons, if_neg hpk]
        exact ih

theorem AMap.get_set_self [DecidableEq α] (m : AMap α β) (k : α) (v : β) :
    (m.set k v).get k = some v := by
  unfold AMap.set
  split
  · rename_i h
    rw [AMap.get_map_upd, if_pos h]
  · rename_i h
    rw [AMap.get_append]
    have hnone : m.get k = none := by
      unfold AMap.get
      have hfind : List.find? (fun p => decide (p.1 = k)) m = none := by
        rw [List.find?_eq_none]
        intro p hp
        simp only [decide_eq_true_eq]
        intro hc
        apply h
        unfold AMap.hasKey
        rw [List.any_eq_true]
        exact ⟨p, hp, by simpa using hc⟩
      rw [hfind]
      rfl
    rw [hnone]
    simp [AMap.get_cons]

theorem AMap.get_set_ne [DecidableEq α] (m : AMap α β) (k k' : α) (v : β)
    (hne : k' ≠ k) : (m.set k v).get k' = m.get k' := by
  unfold AMap.set
  split
  · exact AMap.get_map_upd_ne m k k' v hne
  · rw [AMap.get_append]
    cases hg : m.get k' with
    | some w => simp
    | none => simp [AMap.get_cons, Ne.symm hne, AMap.get_nil]

theorem AMap.get_del_self [DecidableEq α] (m : AMap α β) (k : α) :
    (m.del k).get k = none := by
  unfold AMap.del
  induction m with
  | nil => rfl
  | cons p m ih =>
    by_cases hp : p.1 = k
    · rw [List.filter_cons, if_neg (by simp [hp])]
      exact ih
    · rw [List.filter_cons, if_pos (by simp [hp]), AMap.get_cons, if_neg hp]
      exact ih

theorem AMap.get_del_ne [DecidableEq α] (m : AMap α β) (k k' : α)
    (hne : k' ≠ k) : (m.del k).get k' = m.get k' := by
  unfold AMap.del
  induction m with
  | nil => rfl
  | cons p m ih =>
    by_cases hp : p.1 = k
    · have hpk : ¬ p.1 = k' := fun hc => hne (hc ▸ hp ▸ rfl)
      rw [List.filter_cons, if_neg (by simp [hp]), AMap.get_cons, if_neg hpk]
      exact ih
    · by_cases hpk : p.1 = k'
      · rw [List.filter_cons, if_pos (by simp [hp]), AMap.get_cons, if_pos hpk,
          AMap.get_cons, if_pos hpk]
      · rw [List.filter_cons, if_pos (by simp [hp]), AMap.get_cons, if_neg hpk,
          AMap.get_cons, if_neg hpk]
        exact ih

theorem AMap.get_eq_none_of_hasKey_eq_false [DecidableEq α] (m : AMap α β)
    (k : α) (h : m.hasKey k = false) : m.get k = none := by
  unfold AMap.get
  have hfind : List.find? (fun p => decide (p.1 = k)) m = none := by
    rw [List.find?_eq_none]
    intro p hp
    simp only [decide_eq_true_eq]
    intro hc
    have : m.hasKey k = true := by
      unfold AMap.hasKey
      rw [List.any_eq_true]
      exact ⟨p, hp, by simpa using hc⟩
    simp [this] at h
  rw [hfind]
  rfl

theorem AMap.hasKey_eq_true_of_get [DecidableEq α] (m : AMap α β) (k : α)
    (v : β) (h : m.get k = some v) : m.hasKey k = true := by
  by_cases hk : m.hasKey k
  · exact hk
  · rw [AMap.get_eq_none_of_hasKey_eq_false m k (by simpa using hk)] at h
    exact absurd h (by simp)

theorem AMap.mem_of_get [DecidableEq α] (m : AMap α β) (k : α) (v : β)
    (h : m.get k = some v) : (k, v) ∈ m := by
  unfold AMap.get at h
  rcases Option.map_eq_some'.mp h with ⟨p, hp, hv⟩
  have hk := List.find?_some hp
  have hmem := List.mem_of_find?_eq_some hp
  simp only [decide_eq_true_eq] at hk
  have : p = (k, v) := by
    cases p
    simp only at hk hv
    simp [hk, hv]
  exact this ▸ hmem

theorem AMap.get_ensure [DecidableEq α] (m : AMap α β) (k k' : α) (v0 : β)
    (v : β) (h : m.get k' = some v) : (m.ensure k v0).get k' = some v := by
  unfold AMap.ensure
  split
  · exact h
  · by_cases hk : k' = k
    · subst hk
      have := AMap.hasKey_eq_true_of_get m k' v h
      rename_i hno
      simp [this] at hno
    · rw [AMap.get_set_ne m k k' v0 hk]
      exact h

/-!
Further association-list lemmas, used for the registry invariant.
-/

theorem AMap.get_none_iff [DecidableEq α] (m : AMap α β) (k : α) :
    m.get k = none ↔ m.hasKey k = false := by
  constructor
  · intro h
    by_cases hk : m.hasKey k
    · exfalso
      unfold AMap.hasKey at hk
      rw [List.any_eq_true] at hk
      rcases hk with ⟨p, hp, hc⟩
      unfold AMap.get at h
      rw [Option.map_eq_none'] at h
      rw [List.find?_eq_none] at h
      exact absurd hc (by simpa using h p hp)
    · simpa using hk
  · exact AMap.get_eq_none_of_hasKey_eq_false m k

theorem AMap.get_isSome_of_hasKey [DecidableEq α] (m : AMap α β) (k : α)
    (h : m.hasKey k = true) : (m.get k).isSome := by
  cases hg : m.get k with
  | some v => simp
  | none =>
    rw [AMap.get_none_iff] at hg
    simp [hg] at h

theorem AMap.get_ensure_self [DecidableEq α] (m : AMap α β) (k : α) (v0 : β) :
    (m.ensure k v0).get k = some ((m.get k).getD v0) := by
  unfold AMap.ensure
  split
  · rename_i h
    rcases Option.isSome_iff_exists.mp (AMap.get_isSome_of_hasKey m k h) with ⟨v, hv⟩
    simp [hv]
  · rename_i h
    have : m.get k = none := (AMap.get_none_iff m k).mpr (by simpa using h)
    rw [AMap.get_set_self, this]
    rfl

theorem AMap.hasKey_eq_false_iff_not_mem_keys [DecidableEq α] (m : AMap α β)
    (k : α) : m.hasKey k = false ↔ k ∉ m.keys := by
  unfold AMap.hasKey AMap.keys
  constructor
  · intro h hmem
    rcases List.mem_map.mp hmem with ⟨p, hp, hk⟩
    have : m.any (fun p => decide (p.1 = k)) = true :=
      List.any_eq_true.mpr ⟨p, hp, by simpa using hk⟩
    simp [this] at h
  · intro h
    by_cases ha : m.any (fun p => decide (p.1 = k))
    · exfalso
      rcases List.any_eq_true.mp ha with ⟨p, hp, hc⟩
      exact h (List.mem_map.mpr ⟨p, hp, by simpa using hc⟩)
    · simp only [Bool.not_eq_true] at ha
      exact ha

theorem AMap.keys_set_of_hasKey [DecidableEq α] (m : AMap α β) (k : α) (v : β)
    (h : m.hasKey k = true) : (m.set k v).keys = m.keys := by
  unfold AMap.set
  rw [if_pos h]
  unfold AMap.keys
  rw [List.map_map]
  apply List.map_congr_left
  intro p _
  by_cases hp : p.1 = k
  · simp [hp]
  · simp [hp]

theorem AMap.keys_set_of_hasKey_eq_false [DecidableEq α] (m : AMap α β)
    (k : α) (v : β) (h : m.hasKey k = false) :
    (m.set k v).keys = m.keys ++ [k] := by
  unfold AMap.set
  rw [if_neg (by simp [h])]
  unfold AMap.keys
  simp

theorem AMap.keys_nodup_set [DecidableEq α] (m : AMap α β) (k : α) (v : β)
    (h : m.keys.Nodup) : (m.set k v).keys.Nodup := by
  by_cases hk : m.hasKey k
  · rw [AMap.keys_set_of_hasKey m k v hk]
    exact h
  · rw [AMap.keys_set_of_hasKey_eq_false m k v (by simpa using hk)]
    have hnot := (AMap.hasKey_eq_false_iff_not_mem_keys m k).mp (by simpa using hk)
    simpa [List.nodup_append] using ⟨h, hnot⟩

theorem AMap.keys_nodup_ensure [DecidableEq α] (m : AMap α β) (k : α) (v0 : β)
    (h : m.keys.Nodup) : (m.ensure k v0).keys.Nodup := by
  unfold AMap.ensure
  split
  · exact h
  · exact AMap.keys_nodup_set m k v0 h

theorem AMap.keys_nodup_del [DecidableEq α] (m : AMap α β) (k : α)
    (h : m.keys.Nodup) : (m.del k).keys.Nodup := by
  unfold AMap.del AMap.keys
  exact h.sublist (List.Sublist.map _ (List.filter_sublist m))

theorem AMap.mem_keys_of_mem [DecidableEq α] {m : AMap α β} {p : α × β}
    (h : p ∈ m) : p.1 ∈ m.keys :=
  List.mem_map.mpr ⟨p, h, rfl⟩

theorem AMap.get_of_mem_of_nodup [DecidableEq α] {m : AMap α β} {k : α}
    {v : β} (hnd : m.keys.Nodup) (h : (k, v) ∈ m) : m.get k = some v := by
  induction m with
  | nil => simp at h
  | cons p m ih =>
    rcases List.mem_cons.mp h with h | h
    · rw [← h, AMap.get_cons]
      simp
    · rw [AMap.get_cons]
      have hk : k ∈ AMap.keys m := AMap.mem_keys_of_mem h
      have hnd' : (AMap.keys m).Nodup ∧ p.1 ∉ AMap.keys m := by
        have := hnd
        unfold AMap.keys at this ⊢
        simp only [List.map_cons, List.nodup_cons] at this
        exact ⟨this.2, this.1⟩
      rw [if_neg (fun hc => hnd'.2 (by rw [hc]; exact hk))]
      exact ih hnd'.1 h

theorem sendToAide_fst (st : ServerState) (a : String) (d : AlertData)
    (i ts : String) :
    (sendToAide st a d i ts).1 =
      { st with pendingAlerts := dispatchedPending st a ⟨d, i, ts⟩ } := by
  unfold sendToAide dispatchedPending
  cases hg : st.wsClients.get a with
  | none => simp [hg]
  | some cs =>
    by_cases he : cs.isEmpty
    · simp [hg, he]
    · simp [hg, he]

theorem sendToAide_wsClients (st : ServerState) (a : String) (d : AlertData)
    (i ts : String) : (sendToAide st a d i ts).1.wsClients = st.wsClients := by
  rw [sendToAide_fst]

theorem sendToAide_delivered (st : ServerState) (a : String) (d : AlertData)
    (i ts : String) :
    (sendToAide st a d i ts).2.1 = !(socketsOf st a).isEmpty := by
  unfold sendToAide socketsOf
  cases hg : st.wsClients.get a with
  | none => simp [hg]
  | some cs =>
    by_cases he : cs.isEmpty
    · simp [hg, he]
    · simp [hg, he]

theorem sendToAide_sends (st : ServerState) (a : String) (d : AlertData)
    (i ts : String) :
    (sendToAide st a d i ts).2.2 =
      if (socketsOf st a).isEmpty then []
      else (socketsOf st a).map (fun w => (a, w, ⟨d, i, ts⟩)) := by
  unfold sendToAide socketsOf
  cases hg : st.wsClients.get a with
  | none => simp [hg]
  | some cs =>
    by_cases he : cs.isEmpty
    · simp [hg, he]
    · simp [hg, he]

theorem lookupAlert_sendToAide_self (st : ServerState) (a : String)
    (d : AlertData) (i ts : String) :
    lookupAlert (sendToAide st a d i ts).1 a i = some ⟨d, i, ts⟩ := by
  rw [sendToAide_fst]
  unfold lookupAlert dispatchedPending
  simp [AMap.get_set_self]

theorem lookupAlert_sendToAide_preserved (st : ServerState) (a : String)
    (d : AlertData) (i ts : String) (c aid : String) (p : Payload)
    (hfresh : (queueOf st a).hasKey i = false)
    (h : lookupAlert st c aid = some p) :
    lookupAlert (sendToAide st a d i ts).1 c aid = some p := by
  rw [sendToAide_fst]
  unfold lookupAlert dispatchedPending
  unfold lookupAlert at h
  cases hq : st.pendingAlerts.get c with
  | none => rw [hq] at h; exact absurd h (by simp)
  | some q =>
    rw [hq] at h
    simp only [Option.some_bind] at h
    by_cases hc : c = a
    · subst hc
      have hens : (st.pendingAlerts.ensure c []).get c = some q := by
        have := AMap.get_ensure_self st.pendingAlerts c ([] : AMap String Payload)
        rw [hq] at this
        simpa using this
      simp only [AMap.get_set_self, hens]
      have hQ : queueOf st c = q := by
        unfold queueOf
        rw [hq]
        rfl
      rw [hQ] at hfresh
      have hne : aid ≠ i := by
        intro hcon
        subst hcon
        rw [AMap.get_eq_none_of_hasKey_eq_false q aid hfresh] at h
        exact absurd h (by simp)
      simp only [Option.some_bind, Option.getD_some]
      rw [AMap.get_set_ne _ i aid _ hne]
      exact h
    · rw [AMap.get_set_ne _ a c _ hc]
      have hens : (st.pendingAlerts.ensure a []).get c = some q :=
        AMap.get_ensure st.pendingAlerts a c ([] : AMap String Payload) q hq
      rw [hens]
      simpa using h

/-!
Lemmas about the ack branch (server.js lines 255-262).
-/

theorem ackAlert_wsClients (st : ServerState) (c a : String) :
    (ackAlert st c a).wsClients = st.wsClients := by
  unfold ackAlert
  cases hq : st.pendingAlerts.get c with
  | none => rfl
  | some q =>
    by_cases hk : q.hasKey a
    · simp [hk]
    · simp [hk]

theorem lookupAlert_ackAlert_self (st : ServerState) (c a : String) :
    lookupAlert (ackAlert st c a) c a = none := by
  unfold ackAlert lookupAlert
  cases hq : st.pendingAlerts.get c with
  | none => simp [hq]
  | some q =>
    by_cases hk : q.hasKey a
    · simp only [hk, if_true]
      rw [AMap.get_set_self]
      simp [AMap.get_del_self]
    · simp only [hk]
      simp only [Bool.false_eq_true, if_false, hq, Option.some_bind]
      exact AMap.get_eq_none_of_hasKey_eq_false q a (by simpa using hk)

theorem ackAlert_noop_of_absent (st : ServerState) (c a : String)
    (h : lookupAlert st c a = none) : ackAlert st c a = st := by
  unfold ackAlert
  cases hq : st.pendingAlerts.get c with
  | none => rfl
  | some q =>
    unfold lookupAlert at h
    rw [hq] at h
    simp only [Option.some_bind] at h
    have hk : q.hasKey a = false := (AMap.get_none_iff q a).mp h
    simp [hk]

theorem ackAlert_idem (st : ServerState) (c a : String) :
    ackAlert (ackAlert st c a) c a = ackAlert st c a :=
  ackAlert_noop_of_absent (ackAlert st c a) c a
    (lookupAlert_ackAlert_self st c a)

theorem lookupAlert_ackAlert_preserved (st : ServerState) (c a : String)
    (c' aid' : String) (p : Payload) (h : lookupAlert st c' aid' = some p)
    (hne : ¬ (c' = c ∧ aid' = a)) :
    lookupAlert (ackAlert st c a) c' aid' = some p := by
  unfold ackAlert
  cases hq : st.pendingAlerts.get c with
  | none => exact h
  | some q =>
    by_cases hk : q.hasKey a
    · simp only [hk, if_true]
      unfold lookupAlert at h ⊢
      by_cases hc : c' = c
      · subst hc
        have haid : aid' ≠ a := fun hcon => hne ⟨rfl, hcon⟩
        simp only [AMap.get_set_self]
        rw [hq] at h
        simp only [Option.some_bind] at h ⊢
        rw [AMap.get_del_ne q a aid' haid]
        exact h
      · simp only
        rw [AMap.get_set_ne _ c c' _ hc]
        exact h
    · simp [hk]
      exact h

/-!
Lemmas about the handshake tail, close handler, and rejections.
-/

theorem registerAndFlush_pending_preserved (st : ServerState) (a : String)
    (w : Nat) (c aid : String) (p : Payload)
    (h : lookupAlert st c aid = some p) :
    lookupAlert (registerAndFlush st a w).1 c aid = some p := by
  unfold registerAndFlush lookupAlert
  unfold lookupAlert at h
  cases hq : st.pendingAlerts.get c with
  | none => rw [hq] at h; exact absurd h (by simp)
  | some q =>
    rw [hq] at h
    have hens : (st.pendingAlerts.ensure a []).get c = some q :=
      AMap.get_ensure st.pendingAlerts a c ([] : AMap String Payload) q hq
    simp only [hens]
    exact h

theorem registerAndFlush_mem_sockets (st : ServerState) (a : String)
    (w : Nat) : w ∈ socketsOf (registerAndFlush st a w).1 a := by
  unfold registerAndFlush socketsOf
  simp only [AMap.get_set_self]
  by_cases hw : w ∈ ((st.wsClients.ensure a []).get a).getD []
  · simp [hw]
  · simp [hw]

theorem registerAndFlush_flushed (st : ServerState) (a : String) (w : Nat) :
    (registerAndFlush st a w).2 =
      (queueOf st a).map (fun e => (a, w, e.2)) := by
  unfold registerAndFlush queueOf
  simp only [AMap.get_ensure_self]
  rfl

theorem registerAndFlush_keys_nodup (st : ServerState) (a : String) (w : Nat)
    (h : st.wsClients.keys.Nodup) :
    (registerAndFlush st a w).1.wsClients.keys.Nodup := by
  unfold registerAndFlush
  exact AMap.keys_nodup_set _ _ _ (AMap.keys_nodup_ensure _ _ _ h)

theorem wsClose_pendingAlerts (st : ServerState) (a : String) (w : Nat) :
    (wsClose st a w).pendingAlerts = st.pendingAlerts := by
  unfold wsClose
  cases hg : st.wsClients.get a with
  | none => rfl
  | some s =>
    by_cases he : (s.erase w).isEmpty
    · simp [he]
    · simp [he]

theorem wsClose_keys_nodup (st : ServerState) (a : String) (w : Nat)
    (h : st.wsClients.keys.Nodup) :
    (wsClose st a w).wsClients.keys.Nodup := by
  unfold wsClose
  cases hg : st.wsClients.get a with
  | none => exact h
  | some s =>
    by_cases he : (s.erase w).isEmpty
    · simpa [he] using AMap.keys_nodup_del st.wsClients a h
    · simpa [he] using AMap.keys_nodup_set st.wsClients a (s.erase w) h

theorem onConnection_rejected_state (st : ServerState) (apiKey : String)
    (wsId : Nat) (aideId password token : Option String)
    (authFetch : Except Unit AuthResponse) (e : String) (st' : ServerState)
    (h : onConnection st apiKey wsId aideId password token authFetch =
      .rejected e st') : st' = st := by
  unfold onConnection at h
  by_cases h1 : isFalsyParam aideId
  · simp only [h1, if_true] at h
    cases h
    rfl
  · simp only [h1] at h
    by_cases h2 : isFalsyParam password
    · simp only [h2, if_true] at h
      cases h
      rfl
    · simp only [h2] at h
      by_cases h3 : apiKey ≠ "" ∧ token ≠ some apiKey
      · simp only [if_pos h3] at h
        cases h
        rfl
      · simp only [if_neg h3] at h
        cases authFetch with
        | error u =>
          simp only at h
          cases h
          rfl
        | ok resp =>
          simp only at h
          by_cases h4 : resp.ok
          · simp only [h4] at h
            by_cases h5 : resp.mot_de_passe ≠ password
            · simp only [if_pos h5] at h
              cases h
              rfl
            · simp only [if_neg h5] at h
              cases h
          · simp only [h4] at h
            simp at h
            cases h.1
            exact h.2.symm

theorem onConnection_success (st : ServerState) (apiKey : String)
    (wsId : Nat) (a pw : String) (token : Option String)
    (resp : AuthResponse) (ha : a ≠ "") (hp : pw ≠ "")
    (ht : apiKey = "" ∨ token = some apiKey)
    (hok : resp.ok = true) (hpw : resp.mot_de_passe = some pw) :
    onConnection st apiKey wsId (some a) (some pw) token (.ok resp) =
      .accepted (registerAndFlush st a wsId).1 (registerAndFlush st a wsId).2 := by
  unfold onConnection
  have h1 : isFalsyParam (some a) = false := by simp [isFalsyParam, ha]
  have h2 : isFalsyParam (some pw) = false := by simp [isFalsyParam, hp]
  rw [h1]
  simp only [Bool.false_eq_true, if_false]
  rw [h2]
  simp only [Bool.false_eq_true, if_false]
  have h3 : ¬ (apiKey ≠ "" ∧ token ≠ some apiKey) := by
    rcases ht with ht | ht
    · intro hc; exact hc.1 ht
    · intro hc; exact hc.2 ht
  rw [if_neg h3]
  simp only [hok, hpw, Bool.not_true, Bool.false_eq_true, if_false]
  rw [if_neg (by simp)]
  rfl

theorem onConnection_accepted_inv (st : ServerState) (apiKey : String)
    (wsId : Nat) (aideId password token : Option String)
    (authFetch : Except Unit AuthResponse) (st1 : ServerState)
    (fl : List SendAttempt)
    (h : onConnection st apiKey wsId aideId password token authFetch =
      .accepted st1 fl) :
    st1 = (registerAndFlush st (aideId.getD "") wsId).1 ∧
      fl = (registerAndFlush st (aideId.getD "") wsId).2 := by
  unfold onConnection at h
  by_cases h1 : isFalsyParam aideId
  · simp only [h1, if_true] at h
    cases h
  · simp only [h1] at h
    by_cases h2 : isFalsyParam password
    · simp only [h2, if_true] at h
      cases h
    · simp only [h2] at h
      by_cases h3 : apiKey ≠ "" ∧ token ≠ some apiKey
      · simp only [if_pos h3] at h
        cases h
      · simp only [if_neg h3] at h
        cases authFetch with
        | error u => simp only at h; cases h
        | ok resp =>
          simp only at h
          by_cases h4 : resp.ok
          · simp only [h4] at h
            by_cases h5 : resp.mot_de_passe ≠ password
            · simp only [if_pos h5] at h
              cases h
            · simp only [if_neg h5] at h
              simp only [Bool.not_true, Bool.false_eq_true, if_false] at h
              cases h
              exact ⟨rfl, rfl⟩
          · simp only [h4] at h
            simp at h
  
/-!
Lemmas about the retry sweeper.
-/

theorem retryTick_mem (st : ServerState) (e : SendAttempt)
    (h : e ∈ retryTick st) :
    ∃ cs, (e.1, cs) ∈ st.wsClients ∧ e.2.1 ∈ cs := by
  unfold retryTick at h
  rw [List.mem_flatMap] at h
  rcases h with ⟨c, hc, he⟩
  cases hq : st.pendingAlerts.get c.1 with
  | none => rw [hq] at he; simp at he
  | some q =>
    rw [hq] at he
    by_cases hemp : q.isEmpty
    · simp [hemp] at he
    · simp only [hemp, Bool.false_eq_true, if_false] at he
      rw [List.mem_flatMap] at he
      rcases he with ⟨en, _, he⟩
      rcases List.mem_map.mp he with ⟨w, hw, hwe⟩
      refine ⟨c.2, ?_, ?_⟩
      · have : e.1 = c.1 := by rw [← hwe]
        rw [this]
        exact hc
      · have : e.2.1 = w := by rw [← hwe]
        rw [this]
        exact hw

theorem sendsFor_flatMap_eq (c : String) (cs : List Nat)
    (l : List (String × List Nat)) (f : String × List Nat → List SendAttempt)
    (hf : ∀ p, ∀ e ∈ f p, e.1 = p.1)
    (hnd : (l.map Prod.fst).Nodup) (hc : (c, cs) ∈ l) :
    sendsFor c (l.flatMap f) = f (c, cs) := by
  induction l with
  | nil => simp at hc
  | cons p l ih =>
    have hnd1 : (l.map Prod.fst).Nodup := (List.nodup_cons.mp hnd).2
    have hhd : p.1 ∉ l.map Prod.fst := (List.nodup_cons.mp hnd).1
    unfold sendsFor
    rw [List.flatMap_cons, List.filter_append]
    rcases List.mem_cons.mp hc with hceq | hctl
    · have hfp : List.filter (fun s => decide (s.1 = c)) (f p) = f p := by
        rw [List.filter_eq_self]
        intro e he
        rw [hf p e he, ← hceq]
        simp
      have hrest : List.filter (fun s => decide (s.1 = c)) (l.flatMap f) = [] := by
        rw [List.filter_eq_nil_iff]
        intro e he
        rw [List.mem_flatMap] at he
        rcases he with ⟨q, hq, he⟩
        rw [hf q e he]
        have : q.1 ∈ l.map Prod.fst := List.mem_map.mpr ⟨q, hq, rfl⟩
        simp only [decide_eq_true_eq]
        intro hqc
        rw [← hceq] at hhd
        exact hhd (hqc ▸ this)
      rw [hfp, hrest, List.append_nil, ← hceq]
    · have hpc : p.1 ≠ c := by
        intro hcon
        have : c ∈ l.map Prod.fst := List.mem_map.mpr ⟨(c, cs), hctl, rfl⟩
        exact hhd (hcon ▸ this)
      have hfp : List.filter (fun s => decide (s.1 = c)) (f p) = [] := by
        rw [List.filter_eq_nil_iff]
        intro e he
        rw [hf p e he]
        simpa using hpc
      rw [hfp, List.nil_append]
      exact ih hnd1 hctl

theorem sendsFor_retryTick (st : ServerState) (c : String)
    (hnd : st.wsClients.keys.Nodup) (hc : c ∈ st.wsClients.keys)
    : sendsFor c (retryTick st) =
      (queueOf st c).flatMap
        (fun e => (socketsOf st c).map (fun w => (c, w, e.2))) := by
  rcases List.mem_map.mp hc with ⟨pr, hpr, hprk⟩
  have hmem : (c, pr.2) ∈ st.wsClients := by
    have : pr = (c, pr.2) := by
      cases pr
      simp only at hprk
      simp [hprk]
    rw [← this]
    exact hpr
  have hget : st.wsClients.get c = some pr.2 :=
    AMap.get_of_mem_of_nodup hnd hmem
  have hsock : socketsOf st c = pr.2 := by
    unfold socketsOf
    rw [hget]
    rfl
  unfold retryTick
  rw [sendsFor_flatMap_eq c pr.2 st.wsClients _ ?hf hnd hmem]
  case hf =>
    intro p e he
    cases hq : st.pendingAlerts.get p.1 with
    | none => rw [hq] at he; simp at he
    | some q =>
      rw [hq] at he
      by_cases hemp : q.isEmpty
      · simp [hemp] at he
      · simp only [hemp, Bool.false_eq_true, if_false] at he
        rw [List.mem_flatMap] at he
        rcases he with ⟨en, _, he⟩
        rcases List.mem_map.mp he with ⟨w, _, hwe⟩
        rw [← hwe]
  cases hq : st.pendingAlerts.get c with
  | none =>
    have : queueOf st c = [] := by
      unfold queueOf
      rw [hq]
      rfl
    simp [this]
  | some q =>
    have hQ : queueOf st c = q := by
      unfold queueOf
      rw [hq]
      rfl
    by_cases hemp : q.isEmpty
    · have : q = [] := List.isEmpty_iff.mp hemp
      simp [hemp, hQ, this]
    · simp only [hemp, Bool.false_eq_true, if_false, hQ, hsock]

theorem deliveredSends_congr (env env' : WsEnv) (l : List SendAttempt)
    (h : ∀ e ∈ l, env.ready e.2.1 = env'.ready e.2.1 ∧
      env.fails e.2.1 = env'.fails e.2.1) :
    deliveredSends env l = deliveredSends env' l := by
  unfold deliveredSends
  apply List.filter_congr
  intro e he
  rw [(h e he).1, (h e he).2]

/-!
Step-level lemmas for the transition system.
-/

theorem lookupAlert_eq_of_pending_eq (st st' : ServerState) (c aid : String)
    (h : st'.pendingAlerts = st.pendingAlerts) :
    lookupAlert st' c aid = lookupAlert st c aid := by
  unfold lookupAlert
  rw [h]

theorem step_keys_nodup (apiKey : String) (st : ServerState) (op : Op)
    (hnd : st.wsClients.keys.Nodup) :
    (step apiKey st op).1.wsClients.keys.Nodup := by
  cases op with
  | dispatch a d i ts =>
    simp only [step]
    rw [sendToAide_wsClients]
    exact hnd
  | connect w a p t f =>
    simp only [step]
    cases hr : onConnection st apiKey w a p t f with
    | rejected msg st1 =>
      have := onConnection_rejected_state st apiKey w a p t f msg st1 hr
      simpa [this] using hnd
    | accepted st1 fl =>
      have := (onConnection_accepted_inv st apiKey w a p t f st1 fl hr).1
      rw [this]
      exact registerAndFlush_keys_nodup st (a.getD "") w hnd
  | sweep => exact hnd
  | resend a w => exact hnd
  | ack a i =>
    simp only [step]
    rw [ackAlert_wsClients]
    exact hnd
  | close a w =>
    simp only [step]
    exact wsClose_keys_nodup st a w hnd

theorem step_sends_sound (apiKey : String) (st : ServerState) (op : Op)
    (hnd : st.wsClients.keys.Nodup) (hv : opValid st op) :
    ∀ e ∈ (step apiKey st op).2, e.2.1 ∈ socketsOf (step apiKey st op).1 e.1 := by
  cases op with
  | dispatch a d i ts =>
    intro e he
    simp only [step] at he ⊢
    rw [sendToAide_sends] at he
    by_cases hemp : (socketsOf st a).isEmpty
    · rw [if_pos hemp] at he
      simp at he
    · rw [if_neg hemp] at he
      rcases List.mem_map.mp he with ⟨w, hw, hwe⟩
      have hsock : socketsOf (sendToAide st a d i ts).1 e.1 = socketsOf st e.1 := by
        unfold socketsOf
        rw [sendToAide_wsClients]
      rw [hsock, ← hwe]
      exact hw
  | connect w a p t f =>
    intro e he
    simp only [step] at he ⊢
    revert he
    cases hr : onConnection st apiKey w a p t f with
    | rejected msg st1 =>
      intro he
      simp at he
    | accepted st1 fl =>
      intro he
      simp only at he ⊢
      rcases onConnection_accepted_inv st apiKey w a p t f st1 fl hr with ⟨h1, h2⟩
      rw [h2, registerAndFlush_flushed] at he
      rcases List.mem_map.mp he with ⟨en, _, hwe⟩
      rw [← hwe]
      simp only
      rw [h1]
      exact registerAndFlush_mem_sockets st (a.getD "") w
  | sweep =>
    intro e he
    simp only [step] at he ⊢
    rcases retryTick_mem st e he with ⟨cs, hmem, hw⟩
    have hget : st.wsClients.get e.1 = some cs :=
      AMap.get_of_mem_of_nodup hnd hmem
    unfold socketsOf
    rw [hget]
    exact hw
  | resend a w =>
    intro e he
    simp only [step] at he ⊢
    unfold resendPending at he
    cases hq : st.pendingAlerts.get a with
    | none => rw [hq] at he; simp at he
    | some q =>
      rw [hq] at he
      rcases List.mem_map.mp he with ⟨en, _, hwe⟩
      rw [← hwe]
      exact hv
  | ack a i =>
    intro e he
    simp only [step] at he
    simp at he
  | close a w =>
    intro e he
    simp only [step] at he
    simp at he

theorem step_entry_preserved (apiKey : String) (st : ServerState) (op : Op)
    (hfresh : opFresh st op) (c aid : String) (p : Payload)
    (h : lookupAlert st c aid = some p) :
    lookupAlert (step apiKey st op).1 c aid = some p ∨ op = Op.ack c aid := by
  cases op with
  | dispatch a d i ts =>
    left
    exact lookupAlert_sendToAide_preserved st a d i ts c aid p hfresh h
  | connect w a pw t f =>
    left
    simp only [step]
    cases hr : onConnection st apiKey w a pw t f with
    | rejected msg st1 =>
      have := onConnection_rejected_state st apiKey w a pw t f msg st1 hr
      simpa [this] using h
    | accepted st1 fl =>
      have := (onConnection_accepted_inv st apiKey w a pw t f st1 fl hr).1
      simp only [this]
      exact registerAndFlush_pending_preserved st (a.getD "") w c aid p h
  | sweep => left; exact h
  | resend a w => left; exact h
  | ack a i =>
    by_cases hsame : a = c ∧ i = aid
    · right
      rw [hsame.1, hsame.2]
    · left
      simp only [step]
      apply lookupAlert_ackAlert_preserved st a i c aid p h
      intro hcon
      exact hsame ⟨hcon.1.symm, hcon.2.symm⟩
  | close a w =>
    left
    simp only [step]
    rw [lookupAlert_eq_of_pending_eq st _ c aid (wsClose_pendingAlerts st a w)]
    exact h

theorem runEvents_sound (apiKey : String) (ops : List Op) (st : ServerState)
    (hnd : st.wsClients.keys.Nodup) (hv : TraceValid apiKey st ops) :
    ∀ ev ∈ runEvents apiKey st ops, ev.2.2.1 ∈ socketsOf ev.1 ev.2.1 := by
  induction ops generalizing st with
  | nil =>
    intro ev hev
    simp [runEvents] at hev
  | cons op rest ih =>
    intro ev hev
    simp only [runEvents] at hev
    rw [List.mem_append] at hev
    simp only [TraceValid] at hv
    rcases hev with hev | hev
    · rcases List.mem_map.mp hev with ⟨s, hs, hse⟩
      have := step_sends_sound apiKey st op hnd hv.1 s hs
      rw [← hse]
      exact this
    · exact ih (step apiKey st op).1 (step_keys_nodup apiKey st op hnd) hv.2 ev hev

/-!
Claim theorems.
-/

/-- C1: every `sendToAide(aideId, data)` call first stores a fresh payload
(carrying the generated AlertId and timestamp) in the Pending-Alert Store
for that caregiver, regardless of connectivity; it returns `false` exactly
when no session is registered for the caregiver, and `true` otherwise, in
which case the exact stored payload is broadcast to every registered
session. -/
theorem C1_dispatch_stores_then_broadcasts (st : ServerState) (a : String)
    (d : AlertData) (i ts : String) :
    lookupAlert (sendToAide st a d i ts).1 a i = some ⟨d, i, ts⟩
    ∧ ((sendToAide st a d i ts).2.1 = false ↔ socketsOf st a = [])
    ∧ ((sendToAide st a d i ts).2.1 = true →
        (sendToAide st a d i ts).2.2 =
          (socketsOf st a).map (fun w => (a, w, (⟨d, i, ts⟩ : Payload))))
    ∧ ((sendToAide st a d i ts).2.1 = false →
        (sendToAide st a d i ts).2.2 = []) := by
  refine ⟨lookupAlert_sendToAide_self st a d i ts, ?_, ?_, ?_⟩
  · rw [sendToAide_delivered]
    simp [List.isEmpty_iff]
  · intro h
    rw [sendToAide_delivered] at h
    rw [sendToAide_sends]
    simp only [Bool.not_eq_true'] at h
    rw [if_neg (by simp [h])]
  · intro h
    rw [sendToAide_delivered] at h
    rw [sendToAide_sends]
    simp only [Bool.not_eq_false'] at h
    rw [if_pos h]

/-- Witness for C1 at a concrete state with one registered session. -/
theorem C1_witness :
    lookupAlert
        (sendToAide ⟨[("A", [1])], []⟩ "A" ⟨"warning", "P1", "seuilmedoc", "m", "t"⟩
          "id1" "ts1").1 "A" "id1" =
      some ⟨⟨"warning", "P1", "seuilmedoc", "m", "t"⟩, "id1", "ts1"⟩
    ∧ ((sendToAide ⟨[("A", [1])], []⟩ "A" ⟨"warning", "P1", "seuilmedoc", "m", "t"⟩
          "id1" "ts1").2.1 = false ↔
        socketsOf ⟨[("A", [1])], []⟩ "A" = [])
    ∧ ((sendToAide ⟨[("A", [1])], []⟩ "A" ⟨"warning", "P1", "seuilmedoc", "m", "t"⟩
          "id1" "ts1").2.1 = true →
        (sendToAide ⟨[("A", [1])], []⟩ "A" ⟨"warning", "P1", "seuilmedoc", "m", "t"⟩
          "id1" "ts1").2.2 =
          (socketsOf ⟨[("A", [1])], []⟩ "A").map
            (fun w => ("A", w,
              (⟨⟨"warning", "P1", "seuilmedoc", "m", "t"⟩, "id1", "ts1"⟩ : Payload))))
    ∧ ((sendToAide ⟨[("A", [1])], []⟩ "A" ⟨"warning", "P1", "seuilmedoc", "m", "t"⟩
          "id1" "ts1").2.1 = false →
        (sendToAide ⟨[("A", [1])], []⟩ "A" ⟨"warning", "P1", "seuilmedoc", "m", "t"⟩
          "id1" "ts1").2.2 = []) :=
  C1_dispatch_stores_then_broadcasts ⟨[("A", [1])], []⟩ "A"
    ⟨"warning", "P1", "seuilmedoc", "m", "t"⟩ "id1" "ts1"

/-- C2: in every state, no operation of the core other than an
acknowledgment naming exactly that caregiver and AlertId removes an entry
from the Pending-Alert Store, and a dispatch (in particular one returning
`delivered = true`) leaves its alert present in the store. -/
theorem C2_removed_only_by_exact_ack (apiKey : String) (st : ServerState)
    (op : Op) (hfresh : opFresh st op) :
    (∀ c aid p, lookupAlert st c aid = some p →
      lookupAlert (step apiKey st op).1 c aid = some p ∨ op = Op.ack c aid)
    ∧ (∀ a d i ts, op = Op.dispatch a d i ts →
        lookupAlert (step apiKey st op).1 a i = some ⟨d, i, ts⟩) := by
  constructor
  · intro c aid p h
    exact step_entry_preserved apiKey st op hfresh c aid p h
  · intro a d i ts hop
    subst hop
    simp only [step]
    exact lookupAlert_sendToAide_self st a d i ts

/-- Witness for C2: a sweep tick leaves a queued alert in place. -/
theorem C2_witness :
    lookupAlert
        (step "" ⟨[("A", [1])],
          [("A", [("id1", ⟨⟨"warning", "P1", "s", "m", "t"⟩, "id1", "ts"⟩)])]⟩
          Op.sweep).1 "A" "id1" =
      some ⟨⟨"warning", "P1", "s", "m", "t"⟩, "id1", "ts"⟩
    ∨ Op.sweep = Op.ack "A" "id1" :=
  (C2_removed_only_by_exact_ack "" ⟨[("A", [1])],
      [("A", [("id1", ⟨⟨"warning", "P1", "s", "m", "t"⟩, "id1", "ts"⟩)])]⟩
      Op.sweep trivial).1 "A" "id1"
    ⟨⟨"warning", "P1", "s", "m", "t"⟩, "id1", "ts"⟩ (by decide)

/-- C8: acknowledging the same AlertId twice leaves the Pending-Alert
Store exactly as acknowledging it once (the entry is gone), and
acknowledging an absent AlertId is a no-op that changes no state and
raises no error. -/
theorem C8_ack_idempotent_and_harmless (st : ServerState) (c a : String) :
    ackAlert (ackAlert st c a) c a = ackAlert st c a
    ∧ lookupAlert (ackAlert st c a) c a = none
    ∧ (lookupAlert st c a = none → ackAlert st c a = st) :=
  ⟨ackAlert_idem st c a, lookupAlert_ackAlert_self st c a,
    ackAlert_noop_of_absent st c a⟩

/-- Witness for C8: double ack of a queued alert, and ack of an unknown
id, at a concrete state. -/
theorem C8_witness :
    (ackAlert (ackAlert ⟨[], [("A", [("id1",
        ⟨⟨"warning", "P1", "s", "m", "t"⟩, "id1", "ts"⟩)])]⟩ "A" "id1") "A" "id1" =
      ackAlert ⟨[], [("A", [("id1",
        ⟨⟨"warning", "P1", "s", "m", "t"⟩, "id1", "ts"⟩)])]⟩ "A" "id1")
    ∧ ackAlert ⟨[], [("A", [("id1",
        ⟨⟨"warning", "P1", "s", "m", "t"⟩, "id1", "ts"⟩)])]⟩ "A" "zz" =
      ⟨[], [("A", [("id1", ⟨⟨"warning", "P1", "s", "m", "t"⟩, "id1", "ts"⟩)])]⟩ :=
  ⟨(C8_ack_idempotent_and_harmless ⟨[], [("A", [("id1",
      ⟨⟨"warning", "P1", "s", "m", "t"⟩, "id1", "ts"⟩)])]⟩ "A" "id1").1,
    (C8_ack_idempotent_and_harmless ⟨[], [("A", [("id1",
      ⟨⟨"warning", "P1", "s", "m", "t"⟩, "id1", "ts"⟩)])]⟩ "A" "zz").2.2 (by decide)⟩

/-- C10: every rejected handshake (missing id, missing pwd, bad token,
credential-lookup failure, wrong password, or an exception during
authentication) leaves the Session Registry and the Pending-Alert Store
exactly as they were. -/
theorem C10_rejection_leaves_state_unchanged (st : ServerState)
    (apiKey : String) (wsId : Nat) (aideId password token : Option String)
    (authFetch : Except Unit AuthResponse) (e : String) (st' : ServerState)
    (h : onConnection st apiKey wsId aideId password token authFetch =
      .rejected e st') :
    st'.wsClients = st.wsClients ∧ st'.pendingAlerts = st.pendingAlerts := by
  have := onConnection_rejected_state st apiKey wsId aideId password token
    authFetch e st' h
  rw [this]
  exact ⟨rfl, rfl⟩

/-- Witness for C10: a wrong-password rejection at a populated state. -/
theorem C10_witness :
    (⟨[("B", [2])], [("A", [("id1",
        ⟨⟨"warning", "P1", "s", "m", "t"⟩, "id1", "ts"⟩)])]⟩ : ServerState).wsClients =
      (⟨[("B", [2])], [("A", [("id1",
        ⟨⟨"warning", "P1", "s", "m", "t"⟩, "id1", "ts"⟩)])]⟩ : ServerState).wsClients
    ∧ (⟨[("B", [2])], [("A", [("id1",
        ⟨⟨"warning", "P1", "s", "m", "t"⟩, "id1", "ts"⟩)])]⟩ : ServerState).pendingAlerts =
      (⟨[("B", [2])], [("A", [("id1",
        ⟨⟨"warning", "P1", "s", "m", "t"⟩, "id1", "ts"⟩)])]⟩ : ServerState).pendingAlerts :=
  C10_rejection_leaves_state_unchanged
    ⟨[("B", [2])], [("A", [("id1", ⟨⟨"warning", "P1", "s", "m", "t"⟩, "id1", "ts"⟩)])]⟩
    "key" 7 (some "A") (some "wrong") (some "key")
    (.ok ⟨true, some "pw"⟩) "Invalid password"
    ⟨[("B", [2])], [("A", [("id1", ⟨⟨"warning", "P1", "s", "m", "t"⟩, "id1", "ts"⟩)])]⟩
    (by decide)

/-- C3: every successful handshake (id and pwd supplied, token matching
when a shared secret is configured, credential lookup succeeding with the
stored credential equal to the supplied password) registers the session
under the operator id and then sends every alert currently pending for
that id over the new socket, so alerts dispatched while the operator was
offline are delivered on connect, unprompted. -/
theorem C3_handshake_registers_and_flushes (st : ServerState)
    (apiKey : String) (wsId : Nat) (a pw : String) (token : Option String)
    (resp : AuthResponse) (ha : a ≠ "") (hp : pw ≠ "")
    (ht : apiKey = "" ∨ token = some apiKey)
    (hok : resp.ok = true) (hpw : resp.mot_de_passe = some pw) :
    onConnection st apiKey wsId (some a) (some pw) token (.ok resp) =
      .accepted (registerAndFlush st a wsId).1
        ((queueOf st a).map (fun e => (a, wsId, e.2)))
    ∧ wsId ∈ socketsOf (registerAndFlush st a wsId).1 a
    ∧ (∀ aid pl, lookupAlert st a aid = some pl →
        (a, wsId, pl) ∈ (queueOf st a).map (fun e => (a, wsId, e.2))) := by
  refine ⟨?_, registerAndFlush_mem_sockets st a wsId, ?_⟩
  · rw [onConnection_success st apiKey wsId a pw token resp ha hp ht hok hpw]
    rw [registerAndFlush_flushed]
  · intro aid pl h
    unfold lookupAlert at h
    cases hq : st.pendingAlerts.get a with
    | none => rw [hq] at h; exact absurd h (by simp)
    | some q =>
      rw [hq] at h
      simp only [Option.some_bind] at h
      have hmem : (aid, pl) ∈ q := AMap.mem_of_get q aid pl h
      have hQ : queueOf st a = q := by
        unfold queueOf
        rw [hq]
        rfl
      rw [hQ]
      exact List.mem_map.mpr ⟨(aid, pl), hmem, rfl⟩

/-- Witness for C3: operator A connects while one alert is queued for A;
the handshake is accepted, the socket registered, the alert flushed. -/
theorem C3_witness :
    onConnection ⟨[], [("A", [("id1",
        ⟨⟨"warning", "P1", "s", "m", "t"⟩, "id1", "ts"⟩)])]⟩ "" 3
        (some "A") (some "pw") none (.ok ⟨true, some "pw"⟩) =
      .accepted
        (registerAndFlush ⟨[], [("A", [("id1",
          ⟨⟨"warning", "P1", "s", "m", "t"⟩, "id1", "ts"⟩)])]⟩ "A" 3).1
        ((queueOf ⟨[], [("A", [("id1",
          ⟨⟨"warning", "P1", "s", "m", "t"⟩, "id1", "ts"⟩)])]⟩ "A").map
          (fun e => ("A", 3, e.2)))
    ∧ 3 ∈ socketsOf
        (registerAndFlush ⟨[], [("A", [("id1",
          ⟨⟨"warning", "P1", "s", "m", "t"⟩, "id1", "ts"⟩)])]⟩ "A" 3).1 "A"
    ∧ (∀ aid pl,
        lookupAlert ⟨[], [("A", [("id1",
          ⟨⟨"warning", "P1", "s", "m", "t"⟩, "id1", "ts"⟩)])]⟩ "A" aid = some pl →
        ("A", 3, pl) ∈ (queueOf ⟨[], [("A", [("id1",
          ⟨⟨"warning", "P1", "s", "m", "t"⟩, "id1", "ts"⟩)])]⟩ "A").map
          (fun e => ("A", 3, e.2))) :=
  C3_handshake_registers_and_flushes
    ⟨[], [("A", [("id1", ⟨⟨"warning", "P1", "s", "m", "t"⟩, "id1", "ts"⟩)])]⟩
    "" 3 "A" "pw" none ⟨true, some "pw"⟩ (by decide) (by decide)
    (Or.inl rfl) rfl rfl

/-- C7: the handshake checks identity before credential (a connection
missing both id and pwd gets the missing-id error), and a configured
shared secret with a non-matching token is rejected with the invalid-token
error, whatever the credential lookup would have answered. -/
theorem C7_id_before_pwd_and_token_gate (st : ServerState) (apiKey : String)
    (wsId : Nat) (token : Option String) (f : Except Unit AuthResponse) :
    (∀ pw : Option String,
      onConnection st apiKey wsId none pw token f =
        .rejected "Missing 'id' query param" st)
    ∧ (∀ a pw : String, a ≠ "" → pw ≠ "" → apiKey ≠ "" →
        token ≠ some apiKey →
        onConnection st apiKey wsId (some a) (some pw) token f =
          .rejected "Invalid token" st) := by
  constructor
  · intro pw
    unfold onConnection
    simp [isFalsyParam]
  · intro a pw ha hp hk htk
    unfold onConnection
    have h1 : isFalsyParam (some a) = false := by simp [isFalsyParam, ha]
    have h2 : isFalsyParam (some pw) = false := by simp [isFalsyParam, hp]
    rw [h1]
    simp only [Bool.false_eq_true, if_false]
    rw [h2]
    simp only [Bool.false_eq_true, if_false]
    rw [if_pos ⟨hk, htk⟩]

/-- Witness for C7: a connection with neither id nor pwd gets the
missing-id error, and a wrong token is rejected although the credential
lookup would have succeeded. -/
theorem C7_witness :
    onConnection ⟨[], []⟩ "key" 7 none none (some "bad")
        (.ok ⟨true, some "pw"⟩) =
      .rejected "Missing 'id' query param" ⟨[], []⟩
    ∧ onConnection ⟨[], []⟩ "key" 7 (some "A") (some "pw") (some "bad")
        (.ok ⟨true, some "pw"⟩) =
      .rejected "Invalid token" ⟨[], []⟩ :=
  ⟨(C7_id_before_pwd_and_token_gate ⟨[], []⟩ "key" 7 (some "bad")
      (.ok ⟨true, some "pw"⟩)).1 none,
    (C7_id_before_pwd_and_token_gate ⟨[], []⟩ "key" 7 (some "bad")
      (.ok ⟨true, some "pw"⟩)).2 "A" "pw" (by decide) (by decide)
      (by decide) (by decide)⟩

/-- C6: on a retry-sweep tick, each caregiver present in the Session
Registry has all of its pending alerts re-broadcast to all of its
sessions, and the deliveries for that caregiver depend only on the
behaviour of its own sockets: exceptions raised while re-broadcasting to
another caregiver (caught inside wsSendSafe) leave them unchanged. -/
theorem C6_tick_survives_per_caregiver_failure (st : ServerState)
    (env env' : WsEnv) (c : String) (hnd : st.wsClients.keys.Nodup)
    (hc : c ∈ st.wsClients.keys)
    (hagree : ∀ w ∈ socketsOf st c,
      env.ready w = env'.ready w ∧ env.fails w = env'.fails w) :
    sendsFor c (retryTick st) =
      (queueOf st c).flatMap
        (fun e => (socketsOf st c).map (fun w => (c, w, e.2)))
    ∧ deliveredSends env (sendsFor c (retryTick st)) =
      deliveredSends env' (sendsFor c (retryTick st)) := by
  have h1 := sendsFor_retryTick st c hnd hc
  refine ⟨h1, ?_⟩
  apply deliveredSends_congr
  intro e he
  rw [h1] at he
  rw [List.mem_flatMap] at he
  rcases he with ⟨en, _, he⟩
  rcases List.mem_map.mp he with ⟨w, hw, hwe⟩
  have hew : e.2.1 = w := by rw [← hwe]
  rw [hew]
  exact hagree w hw

/-- Witness for C6: two caregivers A (socket 1) and B (socket 2), each
with one pending alert; `env` makes every send on socket 1 raise while
`env2` makes none raise; caregiver B is re-broadcast identically. -/
theorem C6_witness :
    sendsFor "B" (retryTick ⟨[("A", [1]), ("B", [2])],
        [("A", [("ia", ⟨⟨"warning", "P1", "s", "m", "t"⟩, "ia", "ts"⟩)]),
         ("B", [("ib", ⟨⟨"critical", "P2", "s", "m", "t"⟩, "ib", "ts"⟩)])]⟩) =
      (queueOf ⟨[("A", [1]), ("B", [2])],
        [("A", [("ia", ⟨⟨"warning", "P1", "s", "m", "t"⟩, "ia", "ts"⟩)]),
         ("B", [("ib", ⟨⟨"critical", "P2", "s", "m", "t"⟩, "ib", "ts"⟩)])]⟩ "B").flatMap
        (fun e => (socketsOf ⟨[("A", [1]), ("B", [2])],
          [("A", [("ia", ⟨⟨"warning", "P1", "s", "m", "t"⟩, "ia", "ts"⟩)]),
           ("B", [("ib", ⟨⟨"critical", "P2", "s", "m", "t"⟩, "ib", "ts"⟩)])]⟩ "B").map
          (fun w => ("B", w, e.2)))
    ∧ deliveredSends ⟨fun _ => true, fun w => w = 1⟩
        (sendsFor "B" (retryTick ⟨[("A", [1]), ("B", [2])],
          [("A", [("ia", ⟨⟨"warning", "P1", "s", "m", "t"⟩, "ia", "ts"⟩)]),
           ("B", [("ib", ⟨⟨"critical", "P2", "s", "m", "t"⟩, "ib", "ts"⟩)])]⟩)) =
      deliveredSends ⟨fun _ => true, fun _ => false⟩
        (sendsFor "B" (retryTick ⟨[("A", [1]), ("B", [2])],
          [("A", [("ia", ⟨⟨"warning", "P1", "s", "m", "t"⟩, "ia", "ts"⟩)]),
           ("B", [("ib", ⟨⟨"critical", "P2", "s", "m", "t"⟩, "ib", "ts"⟩)])]⟩)) :=
  C6_tick_survives_per_caregiver_failure
    ⟨[("A", [1]), ("B", [2])],
      [("A", [("ia", ⟨⟨"warning", "P1", "s", "m", "t"⟩, "ia", "ts"⟩)]),
       ("B", [("ib", ⟨⟨"critical", "P2", "s", "m", "t"⟩, "ib", "ts"⟩)])]⟩
    ⟨fun _ => true, fun w => w = 1⟩ ⟨fun _ => true, fun _ => false⟩ "B"
    (by decide) (by decide) (by decide)

/-- C9: along every valid run of the core from the initial state, each
alert message is sent to a socket that is, at that very step, registered
in the Session Registry under the caregiver whose queue the alert belongs
to; a session registered only under a different caregiver can never
receive it. -/
theorem C9_no_cross_caregiver_delivery (apiKey : String) (ops : List Op)
    (hv : TraceValid apiKey initState ops) :
    ∀ ev ∈ runEvents apiKey initState ops,
      ev.2.2.1 ∈ socketsOf ev.1 ev.2.1 :=
  runEvents_sound apiKey ops initState (by simp [initState, AMap.keys]) hv

/-- Witness for C9: dispatch an alert to offline caregiver A, then A
connects; the flushed message goes to the socket registered under A. -/
theorem C9_witness :
    (1 : Nat) ∈ socketsOf
      ⟨[("A", [1])], [("A", [("id1",
        ⟨⟨"warning", "P1", "s", "m", "t"⟩, "id1", "ts1"⟩)])]⟩ "A" :=
  C9_no_cross_caregiver_delivery ""
    [Op.dispatch "A" ⟨"warning", "P1", "s", "m", "t"⟩ "id1" "ts1",
     Op.connect 1 (some "A") (some "pw") none (.ok ⟨true, some "pw"⟩)]
    (by simp [TraceValid, opValid])
    (⟨[("A", [1])], [("A", [("id1",
        ⟨⟨"warning", "P1", "s", "m", "t"⟩, "id1", "ts1"⟩)])]⟩,
      ("A", 1, ⟨⟨"warning", "P1", "s", "m", "t"⟩, "id1", "ts1"⟩))
    (by decide)

/-- C4 counterexample: the claim fails on the code.  With a stale cached
mapping of patient P1 to caregiver A and a failing refetch,
`fetchAllPatients` returns the empty array (the catch branch at server.js
lines 120-123), not the stale cached value, and `getAideForPatient`
consequently returns no caregiver; the same cache, read while fresh, does
map P1 to A. -/
theorem C4_counterexample :
    (fetchAllPatients ⟨some (.arr [⟨"P1", some "A"⟩]), 0⟩ 30000 30001 "db"
        (.error ())).2 = .arr []
    ∧ (fetchAllPatients ⟨some (.arr [⟨"P1", some "A"⟩]), 0⟩ 30000 30001 "db"
        (.error ())).2 ≠ .arr [⟨"P1", some "A"⟩]
    ∧ (getAideForPatient ⟨some (.arr [⟨"P1", some "A"⟩]), 0⟩ 30000 30001 "db"
        (.error ()) "P1").2 = none
    ∧ (getAideForPatient ⟨some (.arr [⟨"P1", some "A"⟩]), 29999⟩ 30000 30001
        "db" (.error ()) "P1").2 = some "A" := by
  decide

/-- C4 amended: a Directory Cache read performed at or past the TTL whose
refetch fails returns the empty patient list to the caller (and
`getAideForPatient` then reports no caregiver); the stale mapping is
retained unread in the cache, the cache state being left unchanged. -/
theorem C4_stale_refetch_failure_returns_empty (st : CacheState)
    (d : PatientsJson) (now now2 : Int) (apiBase : String) (pid : String)
    (hcached : st.patientsCache = some d)
    (hstale : ¬ now - st.patientsCacheTs < PATIENTS_CACHE_TTL_MS)
    (hbase : apiBase ≠ "") :
    fetchAllPatients st now now2 apiBase (.error ()) = (st, .arr [])
    ∧ (fetchAllPatients st now now2 apiBase (.error ())).1.patientsCache =
        some d
    ∧ getAideForPatient st now now2 apiBase (.error ()) pid = (st, none) := by
  have h1 : fetchAllPatients st now now2 apiBase (.error ()) = (st, .arr []) := by
    unfold fetchAllPatients
    rw [if_neg (fun hc => hstale hc.2), if_neg hbase]
  refine ⟨h1, ?_, ?_⟩
  · rw [h1]
    exact hcached
  · unfold getAideForPatient
    rw [h1]
    simp

/-- Witness for the amended C4 at a concrete stale cache. -/
theorem C4_witness :
    fetchAllPatients ⟨some (.arr [⟨"P1", some "A"⟩]), 0⟩ 30000 30001 "db"
        (.error ()) =
      (⟨some (.arr [⟨"P1", some "A"⟩]), 0⟩, .arr [])
    ∧ (fetchAllPatients ⟨some (.arr [⟨"P1", some "A"⟩]), 0⟩ 30000 30001 "db"
        (.error ())).1.patientsCache = some (.arr [⟨"P1", some "A"⟩])
    ∧ getAideForPatient ⟨some (.arr [⟨"P1", some "A"⟩]), 0⟩ 30000 30001 "db"
        (.error ()) "P2" =
      (⟨some (.arr [⟨"P1", some "A"⟩]), 0⟩, none) :=
  C4_stale_refetch_failure_returns_empty
    ⟨some (.arr [⟨"P1", some "A"⟩]), 0⟩ (.arr [⟨"P1", some "A"⟩])
    30000 30001 "db" "P2" rfl (by decide) (by decide)

/-- C5: the topic-router handler does not complete on every input: on the
dose-delivery-confirmation topic with a payload that is not valid JSON,
the unguarded `JSON.parse(message)` of the delivery branch (server.js
line 395) raises, and no try/catch in the handler intercepts it, so the
exception escapes the async handler as an unhandled promise rejection.
The model evaluates the handler at that input to the escaping error. -/
theorem C5_delivery_invalid_json_escapes :
    onMqttMessage ⟨[], []⟩ ⟨some (.arr [⟨"P1", some "A"⟩]), 0⟩
        "alert/box/P1/delivery" "not json" 0 0 "db"
        (.ok (.arr [⟨"P1", some "A"⟩])) (.error "SyntaxError") (.ok true)
        "id1" "ts1" =
      .error "SyntaxError" := by
  decide
